import Mathlib

/-!
# The WASI shim of package `syscall` and `poll.FD.Seek` on wasip1

A shallow embedding of

* `src/internal/poll/fd_seek_wasip1.go` (`FD.Seek`), and
* `src/syscall/syscall_wasi.go` (directory-entry accessors, `Errno`, `Signal`,
  the process emulation, `Umask`, `Timeval`) with `ProcExit` of
  `src/syscall/os_wasip1.go`,

followed by the properties established about them.

Conventions.  Go's `uint32`/`uint64` values are natural numbers, `int`/`int64`
values are integers (`GOARCH=wasm` has a 64-bit `int`); a wrap-around `% 2^w`
is written wherever an operation can leave the range.  Calls that leave the
translated function (`incref`, `decref`, `Fstat`, `syscall.Seek`) are answered
by a `Host` record and logged in order, so that "is (not) invoked" is a
statement about the log.
-/

namespace GoWasi

/-! ## Constants used but not declared by the translated files -/

/-- Numeric constants of package `syscall` that the translated files refer to
without declaring them.  Their values are not fixed here: every general
theorem holds for all values. -/
structure Consts where
  FILETYPE_UNKNOWN : Nat
  FILETYPE_DIRECTORY : Nat
  EACCES : Nat
  EAGAIN : Nat
  EEXIST : Nat
  EINTR : Nat
  EINVAL : Nat
  EMFILE : Nat
  ENOENT : Nat
  ENOSYS : Nat
  ENOTEMPTY : Nat
  EPERM : Nat
  ETIMEDOUT : Nat
deriving Repr

/-- The values the WASI preview 1 ABI assigns to the constants; used for the
concrete instances below. -/
def wasip1 : Consts where
  FILETYPE_UNKNOWN := 0
  FILETYPE_DIRECTORY := 3
  EACCES := 2
  EAGAIN := 6
  EEXIST := 20
  EINTR := 27
  EINVAL := 28
  EMFILE := 33
  ENOENT := 44
  ENOSYS := 52
  ENOTEMPTY := 55
  EPERM := 63
  ETIMEDOUT := 73

/-! ## Error values -/

/-- A value of Go's `error` interface, as far as the translated code tells
values apart: a `syscall.Errno`, one of the three `oserror` sentinels that
`Errno.Is` switches on, or any other error value. -/
inductive GoError where
  | errno (e : Nat)
  | ErrPermission
  | ErrExist
  | ErrNotExist
  | other (id : Nat)
deriving DecidableEq, Repr

/-! ## `poll.FD` and `FD.Seek` -/

/-- The fields of `poll.FD` that `Seek` reads or writes. -/
structure FD where
  /-- System file descriptor. -/
  Sysfd : Int
  /-- Cached file type (`uint32`, accessed atomically). -/
  Filetype : Nat
  /-- Read position of the directory listing (`uint64`). -/
  Dircookie : Nat
deriving DecidableEq, Repr

/-- A call made by `Seek` to code outside of it. -/
inductive Call where
  | incref
  | decref
  | Fstat
  | Seek (fd : Int) (offset : Int) (whence : Int)
deriving DecidableEq, Repr

/-- The answers of the surroundings during one call of `Seek`. -/
structure Host where
  /-- Result of `fd.incref()`: `none` is a nil error. -/
  incref : Option GoError
  /-- Result of `fd.Fstat(&stat)`: an error, or the value of
  `syscall.Filetype(stat.Filetype)`. -/
  Fstat : Except GoError Nat
  /-- The function `syscall.Seek`. -/
  Seek : Int → Int → Int → Int × Option GoError

/-- What one call of `Seek` leaves behind: the descriptor, the two results
and the calls made, oldest first. -/
structure Outcome where
  fd : FD
  pos : Int
  err : Option GoError
  calls : List Call

/-- Method `(*FD).Seek` of `fd_seek_wasip1.go`.  The deferred `fd.decref()` is
the last call of every path that follows a successful `incref`. -/
def FD.Seek (k : Consts) (h : Host) (fd : FD) (offset whence : Int) : Outcome :=
  match h.incref with
  | some err => ⟨fd, 0, some err, [Call.incref]⟩
  | none =>
    let fileType := fd.Filetype
    if fileType = k.FILETYPE_UNKNOWN then
      match h.Fstat with
      | Except.error err => ⟨fd, 0, some err, [Call.incref, Call.Fstat, Call.decref]⟩
      | Except.ok fileType =>
        let fd := { fd with Filetype := fileType }
        if fileType = k.FILETYPE_DIRECTORY then
          if offset = 0 ∧ whence = 0 then
            ⟨{ fd with Dircookie := 0 }, 0, none, [Call.incref, Call.Fstat, Call.decref]⟩
          else
            ⟨fd, 0, some (GoError.errno k.EINVAL), [Call.incref, Call.Fstat, Call.decref]⟩
        else
          let r := h.Seek fd.Sysfd offset whence
          ⟨fd, r.1, r.2,
            [Call.incref, Call.Fstat, Call.Seek fd.Sysfd offset whence, Call.decref]⟩
    else
      if fileType = k.FILETYPE_DIRECTORY then
        if offset = 0 ∧ whence = 0 then
          ⟨{ fd with Dircookie := 0 }, 0, none, [Call.incref, Call.decref]⟩
        else
          ⟨fd, 0, some (GoError.errno k.EINVAL), [Call.incref, Call.decref]⟩
      else
        let r := h.Seek fd.Sysfd offset whence
        ⟨fd, r.1, r.2, [Call.incref, Call.Seek fd.Sysfd offset whence, Call.decref]⟩

/-- The file type of `fd` is `t`, either cached or delivered by a successful
metadata query. -/
def HasType (k : Consts) (h : Host) (fd : FD) (t : Nat) : Prop :=
  (fd.Filetype ≠ k.FILETYPE_UNKNOWN ∧ fd.Filetype = t) ∨
    (fd.Filetype = k.FILETYPE_UNKNOWN ∧ h.Fstat = Except.ok t)

/-- A host on which `syscall.Seek` reports the requested offset. -/
def openHost : Host where
  incref := none
  Fstat := Except.ok 4
  Seek := fun _ offset _ => (offset, none)

/-- A host whose descriptor is being closed: `incref` fails. -/
def closingHost : Host where
  incref := some (GoError.other 0)
  Fstat := Except.ok 3
  Seek := fun _ offset _ => (offset, none)

/-- Selects the calls of the native seek primitive in a log. -/
def Call.isSeek : Call → Bool
  | Call.Seek _ _ _ => true
  | _ => false

/-- A directory descriptor with handle 5 whose listing has advanced to
cookie 7; the type is cached. -/
def dirFD : FD := ⟨5, wasip1.FILETYPE_DIRECTORY, 7⟩

/-- A freshly opened descriptor: nothing cached. -/
def freshFD : FD := ⟨5, wasip1.FILETYPE_UNKNOWN, 7⟩

/-- A host whose metadata query succeeds and reports the type `unknown`. -/
def unknownHost : Host where
  incref := none
  Fstat := Except.ok wasip1.FILETYPE_UNKNOWN
  Seek := fun _ offset _ => (offset, none)

/-- A host whose metadata query fails with `EINTR`. -/
def failingHost : Host where
  incref := none
  Fstat := Except.error (GoError.errno wasip1.EINTR)
  Seek := fun _ offset _ => (offset, none)

/-! ## Directory entries (`syscall_wasi.go`) -/

/-- One byte of a `[]byte`. -/
abbrev Byte := Fin 256

/-- Modelled from the spec: the helper that reads `n` bytes starting at index
`off` as a little-endian unsigned number (wasm's native byte order) is not
among the sources.  Every byte is fetched by a checked index; `none` stands
for a read outside the buffer. -/
def readIntLE (buf : List Byte) (off : Nat) : Nat → Option Nat
  | 0 => some 0
  | n + 1 =>
    match buf[off]?, readIntLE buf (off + 1) n with
    | some b, some rest => some (b.val + 256 * rest)
    | _, _ => none

/-- Modelled from the spec: `readInt` of package `syscall` is not among the
sources.  Section 4.3: a field is extracted "as an unsigned integer of the
declared width, reading only within buffer bounds", and `ok = false` "signals
the buffer is shorter than required for that field".  The value paired with
`ok = false` is left open by the spec; it is 0 here. -/
def readInt (buf : List Byte) (off size : Nat) : Option (Nat × Bool) :=
  if buf.length < off + size then some (0, false)
  else
    match readIntLE buf off size with
    | some v => some (v, true)
    | none => none

/-- Modelled from the spec: `unsafe.Offsetof(Dirent{}.Ino)`.  The type of the
preceding field `Next` is declared outside the sources; section 6 gives the
header as "8-byte next-cursor, 8-byte inode, 4-byte name-length". -/
def Dirent.offsetofIno : Nat := 8

/-- Modelled from the spec: `unsafe.Sizeof(Dirent{}.Ino)`, an "8-byte inode". -/
def Dirent.sizeofIno : Nat := 8

/-- Modelled from the spec: `unsafe.Offsetof(Dirent{}.Namlen)`, after the
8-byte `Next` and the 8-byte `Ino`. -/
def Dirent.offsetofNamlen : Nat := 16

/-- The value of `unsafe.Sizeof(Dirent{}.Namlen)`; the field is a `uint32`. -/
def Dirent.sizeofNamlen : Nat := 4

/-- Function `direntIno`. -/
def direntIno (buf : List Byte) : Option (Nat × Bool) :=
  readInt buf Dirent.offsetofIno Dirent.sizeofIno

/-- Function `direntNamlen`. -/
def direntNamlen (buf : List Byte) : Option (Nat × Bool) :=
  readInt buf Dirent.offsetofNamlen Dirent.sizeofNamlen

/-- Function `direntReclen`; the sum is a `uint64`. -/
def direntReclen (buf : List Byte) : Option (Nat × Bool) :=
  match direntNamlen buf with
  | some (namelen, ok) => some ((24 + namelen) % 2 ^ 64, ok)
  | none => none

/-- The little-endian value of a run of bytes, first byte least significant. -/
def leValue : List Byte → Nat
  | [] => 0
  | b :: bs => b.val + 256 * leValue bs

/-- A directory-entry record: `Next = 1`, `Ino = 258`, `Namlen = 3`,
`Type = 4`, name `abc`. -/
def sampleDirent : List Byte :=
  [1, 0, 0, 0, 0, 0, 0, 0, 2, 1, 0, 0, 0, 0, 0, 0, 3, 0, 0, 0, 4, 0, 0, 0, 97, 98, 99]

/-! ## `Errno` (`syscall_wasi.go`) -/

/-- Modelled from the spec: `itoa.Itoa` is not among the sources; section 4.4
asks for the "decimal value". -/
def Itoa (val : Int) : String :=
  if val < 0 then "-" ++ Nat.repr val.natAbs else Nat.repr val.natAbs

/-- Method `Errno.Error`.  `errorstr` is the message table, declared outside
the sources; `e` is a `uint32`, so `int(e)` is `e`. -/
def Errno.Error (errorstr : List String) (e : Nat) : String :=
  if h : 0 ≤ (e : Int) ∧ (e : Int) < (errorstr.length : Int) then
    let s := errorstr.get ⟨e, by omega⟩
    if s ≠ "" then s else "errno " ++ Itoa (e : Int)
  else
    "errno " ++ Itoa (e : Int)

/-- Method `Errno.Is`. -/
def Errno.Is (k : Consts) (e : Nat) (target : GoError) : Bool :=
  match target with
  | GoError.ErrPermission => e == k.EACCES || e == k.EPERM
  | GoError.ErrExist => e == k.EEXIST || e == k.ENOTEMPTY
  | GoError.ErrNotExist => e == k.ENOENT
  | _ => false

/-- A message table with a gap at index 1. -/
def sampleErrorstr : List String := ["", "", "permission denied"]

/-- Method `Errno.Timeout`. -/
def Errno.Timeout (k : Consts) (e : Nat) : Bool :=
  e == k.EAGAIN || e == k.ETIMEDOUT

/-- Method `Errno.Temporary`. -/
def Errno.Temporary (k : Consts) (e : Nat) : Bool :=
  e == k.EINTR || e == k.EMFILE || Errno.Timeout k e

/-! ## `Signal` (`syscall_wasi.go`) -/

/-- Constant `SIGCHLD` of the `iota` block (the entry for 0 is blank). -/
def SIGCHLD : Int := 1

/-- Constant `SIGINT`. -/
def SIGINT : Int := 2

/-- Constant `SIGKILL`. -/
def SIGKILL : Int := 3

/-- Constant `SIGTRAP`. -/
def SIGTRAP : Int := 4

/-- Constant `SIGQUIT`. -/
def SIGQUIT : Int := 5

/-- Constant `SIGTERM`. -/
def SIGTERM : Int := 6

/-- The variable `signals`, declared as `[...]string{}`: an array of length 0,
so no assignment can give it an element. -/
def signals : List String := []

/-- Method `Signal.String`; a `Signal` is an `int`. -/
def Signal.String (s : Int) : String :=
  if h : 0 ≤ s ∧ s < (signals.length : Int) then
    let str := signals.get ⟨s.toNat, by omega⟩
    if str ≠ "" then str else "signal " ++ Itoa s
  else
    "signal " ++ Itoa s

/-! ## Processes (`syscall_wasi.go`, `os_wasip1.go`) -/

/-- Conversion of an integer to `int32` (two's complement wrap-around). -/
def toInt32 (x : Int) : Int := (x + 2 ^ 31) % 2 ^ 32 - 2 ^ 31

/-- Conversion of an integer to `int64` (two's complement wrap-around). -/
def toInt64 (x : Int) : Int := (x + 2 ^ 63) % 2 ^ 64 - 2 ^ 63

/-- Conversion of an integer to `uint64`. -/
def toUint64 (x : Int) : Nat := (x % 2 ^ 64).toNat

/-- A call of an imported host function. -/
inductive HostCall where
  | proc_exit (code : Int)
deriving DecidableEq, Repr

/-- Function `ProcExit`: hands `code` to the host's `proc_exit`.  The result is
the list of host calls made. -/
def ProcExit (code : Int) : List HostCall :=
  [HostCall.proc_exit code]

/-- Function `Kill`: the host calls made and the returned error.  The sum
`128 + int32(signum)` is an `int32`. -/
def Kill (pid : Int) (signum : Int) : List HostCall × Option GoError :=
  let _ := pid
  (ProcExit (toInt32 (128 + toInt32 signum)), none)

/-- Type `Timeval`; both fields are `int64`. -/
structure Timeval where
  Sec : Int
  Usec : Int
deriving DecidableEq, Repr

/-- Type `Rusage`. -/
structure Rusage where
  Utime : Timeval
  Stime : Timeval
deriving DecidableEq, Repr

/-- Type `SysProcAttr`, a struct without fields. -/
structure SysProcAttr where
deriving DecidableEq, Repr

/-- Type `ProcAttr`; a pointer is `none` when nil. -/
structure ProcAttr where
  Dir : String
  Env : List String
  Files : List Nat
  Sys : Option SysProcAttr
deriving DecidableEq, Repr

/-- Function `Syscall`: results `(r1, r2, err)`. -/
def Syscall (k : Consts) (trap a1 a2 a3 : Nat) : Nat × Nat × Nat :=
  let _ := (trap, a1, a2, a3)
  (0, 0, k.ENOSYS)

/-- Function `Syscall6`. -/
def Syscall6 (k : Consts) (trap a1 a2 a3 a4 a5 a6 : Nat) : Nat × Nat × Nat :=
  let _ := (trap, a1, a2, a3, a4, a5, a6)
  (0, 0, k.ENOSYS)

/-- Function `RawSyscall`. -/
def RawSyscall (k : Consts) (trap a1 a2 a3 : Nat) : Nat × Nat × Nat :=
  let _ := (trap, a1, a2, a3)
  (0, 0, k.ENOSYS)

/-- Function `RawSyscall6`. -/
def RawSyscall6 (k : Consts) (trap a1 a2 a3 a4 a5 a6 : Nat) : Nat × Nat × Nat :=
  let _ := (trap, a1, a2, a3, a4, a5, a6)
  (0, 0, k.ENOSYS)

/-- Function `Sysctl`: the string and the error (`none` is nil). -/
def Sysctl (k : Consts) (key : String) : String × Option GoError :=
  if key = "kern.hostname" then
    ("js", none)
  else
    ("", some (GoError.errno k.ENOSYS))

/-- Function `StartProcess`: results `(pid, handle, err)`. -/
def StartProcess (k : Consts) (argv0 : String) (argv : List String)
    (attr : Option ProcAttr) : Int × Nat × Option GoError :=
  let _ := (argv0, argv, attr)
  (0, 0, some (GoError.errno k.ENOSYS))

/-- Function `Wait4`: results `(wpid, err)`; `wstatus` and `rusage` are
pointers, which the function does not write through. -/
def Wait4 (k : Consts) (pid : Int) (wstatus : Option Nat) (options : Int)
    (rusage : Option Rusage) : Int × Option GoError :=
  let _ := (pid, wstatus, options, rusage)
  (0, some (GoError.errno k.ENOSYS))

/-- Function `Umask`.  The package variable `umask` is the first argument; the
result pairs the returned value with the new value of the variable. -/
def Umask (umask mask : Int) : Int × Int :=
  let (umask, mask) := (mask, umask)
  (mask, umask)

/-- The value of `var umask int` before the first call. -/
def umaskInit : Int := 0

/-- Method `(*Timeval).timestamp`.  A `timestamp` is the host's unsigned 64-bit
count of nanoseconds; the products are `int64`, the sum is a `uint64`. -/
def Timeval.timestamp (tv : Timeval) : Nat :=
  (toUint64 (toInt64 (tv.Sec * 1000000000)) + toUint64 (toInt64 (tv.Usec * 1000))) % 2 ^ 64

/-- Method `(*Timeval).setTimestamp`; quotient and remainder are taken in
`uint64` and converted to `int64`. -/
def Timeval.setTimestamp (tv : Timeval) (t : Nat) : Timeval :=
  { tv with
    Sec := toInt64 ((t / 1000000000 : Nat) : Int)
    Usec := toInt64 (((t % 1000000000) / 1000 : Nat) : Int) }

/-! ## The in-use count of a descriptor -/

/-- Modelled from the spec: `incref` and `decref` are declared outside the
sources.  Section 5 describes them as "increment-on-use / decrement-on-release":
a successful `incref` adds one reference, `decref` releases one.  The function
gives the in-use count after the logged calls, `n` being the count before. -/
def inUse (h : Host) (n : Nat) : List Call → Nat
  | [] => n
  | Call.incref :: cs => inUse h (if h.incref = none then n + 1 else n) cs
  | Call.decref :: cs => inUse h (n - 1) cs
  | _ :: cs => inUse h n cs

/-! ## Properties of `FD.Seek` -/

theorem seek_incref_error (k : Consts) (h : Host) (fd : FD) (offset whence : Int)
    (err : GoError) (hin : h.incref = some err) :
    FD.Seek k h fd offset whence = ⟨fd, 0, some err, [Call.incref]⟩ := by
  simp [FD.Seek, hin]

theorem seek_of_type (k : Consts) (h : Host) (fd : FD) (offset whence : Int) (t : Nat)
    (hin : h.incref = none) (ht : HasType k h fd t) :
    ∃ pre : List Call, (pre = [Call.incref] ∨ pre = [Call.incref, Call.Fstat]) ∧
      FD.Seek k h fd offset whence =
        if t = k.FILETYPE_DIRECTORY then
          if offset = 0 ∧ whence = 0 then
            ⟨⟨fd.Sysfd, t, 0⟩, 0, none, pre ++ [Call.decref]⟩
          else
            ⟨⟨fd.Sysfd, t, fd.Dircookie⟩, 0, some (GoError.errno k.EINVAL),
              pre ++ [Call.decref]⟩
        else
          ⟨⟨fd.Sysfd, t, fd.Dircookie⟩, (h.Seek fd.Sysfd offset whence).1,
            (h.Seek fd.Sysfd offset whence).2,
            pre ++ [Call.Seek fd.Sysfd offset whence, Call.decref]⟩ := by
  rcases ht with ⟨hk, hc⟩ | ⟨hu, hs⟩
  · refine ⟨[Call.incref], Or.inl rfl, ?_⟩
    subst hc
    cases fd
    simp only [FD.Seek, hin]
    simp only [if_neg hk]
    rfl
  · refine ⟨[Call.incref, Call.Fstat], Or.inr rfl, ?_⟩
    cases fd
    simp only [FD.Seek, hin, hs]
    simp only [if_pos hu]
    rfl

/-- C1, as stated, fails: a directory descriptor (type cached) that is being
closed makes `incref` fail, and `Seek(0, 0)` then returns that error and leaves
the cursor at 7. -/
theorem seek_rewind_closing_counterexample :
    HasType wasip1 closingHost dirFD wasip1.FILETYPE_DIRECTORY ∧
      (FD.Seek wasip1 closingHost dirFD 0 0).err = some (GoError.other 0) ∧
      (FD.Seek wasip1 closingHost dirFD 0 0).fd.Dircookie = 7 := by
  refine ⟨Or.inl ⟨by decide, rfl⟩, rfl, rfl⟩

/-- C1, amended: when `incref` succeeds and the file type is directory (cached,
or delivered by a successful metadata query), `Seek(0, 0)` returns position 0
with no error and leaves `Dircookie = 0`, whatever the cursor was before. -/
theorem seek_dir_rewind (k : Consts) (h : Host) (fd : FD)
    (hin : h.incref = none) (ht : HasType k h fd k.FILETYPE_DIRECTORY) :
    (FD.Seek k h fd 0 0).pos = 0 ∧ (FD.Seek k h fd 0 0).err = none ∧
      (FD.Seek k h fd 0 0).fd.Dircookie = 0 := by
  obtain ⟨pre, -, hs⟩ := seek_of_type k h fd 0 0 _ hin ht
  simp [hs]

theorem seek_dir_rewind_witness :
    (FD.Seek wasip1 openHost dirFD 0 0).pos = 0 ∧
      (FD.Seek wasip1 openHost dirFD 0 0).err = none ∧
      (FD.Seek wasip1 openHost dirFD 0 0).fd.Dircookie = 0 :=
  seek_dir_rewind wasip1 openHost dirFD rfl (Or.inl ⟨by decide, rfl⟩)

/-- C2, as stated, fails: on a directory descriptor that is being closed,
`Seek(5, 0)` returns the error of `incref`, which is not `EINVAL`. -/
theorem seek_einval_closing_counterexample :
    HasType wasip1 closingHost dirFD wasip1.FILETYPE_DIRECTORY ∧
      ((5 : Int) ≠ 0 ∨ (0 : Int) ≠ 0) ∧
      (FD.Seek wasip1 closingHost dirFD 5 0).err ≠ some (GoError.errno wasip1.EINVAL) := by
  refine ⟨Or.inl ⟨by decide, rfl⟩, Or.inl (by decide), ?_⟩
  decide

/-- C2, amended: when `incref` succeeds and the file type is directory, every
`(offset, whence)` other than `(0, 0)` makes `Seek` return position 0 and the
error `EINVAL`, and `syscall.Seek` is not called. -/
theorem seek_dir_einval (k : Consts) (h : Host) (fd : FD) (offset whence : Int)
    (hin : h.incref = none) (ht : HasType k h fd k.FILETYPE_DIRECTORY)
    (hne : offset ≠ 0 ∨ whence ≠ 0) :
    (FD.Seek k h fd offset whence).err = some (GoError.errno k.EINVAL) ∧
      (FD.Seek k h fd offset whence).pos = 0 ∧
      ∀ a b c, Call.Seek a b c ∉ (FD.Seek k h fd offset whence).calls := by
  obtain ⟨pre, hp, hs⟩ := seek_of_type k h fd offset whence _ hin ht
  have hn : ¬ (offset = 0 ∧ whence = 0) := by
    rintro ⟨h1, h2⟩
    rcases hne with h3 | h3
    · exact h3 h1
    · exact h3 h2
  rw [hs, if_pos rfl, if_neg hn]
  refine ⟨rfl, rfl, ?_⟩
  intro a b c
  rcases hp with rfl | rfl <;> simp

theorem seek_dir_einval_witness :
    (FD.Seek wasip1 openHost dirFD 5 0).err = some (GoError.errno wasip1.EINVAL) ∧
      (FD.Seek wasip1 openHost dirFD 5 0).pos = 0 ∧
      ∀ a b c, Call.Seek a b c ∉ (FD.Seek wasip1 openHost dirFD 5 0).calls :=
  seek_dir_einval wasip1 openHost dirFD 5 0 rfl (Or.inl ⟨by decide, rfl⟩)
    (Or.inl (by decide))

/-- C3: when `incref` and the classification succeed with a type `t` other than
directory, `Seek` calls `syscall.Seek` exactly once, with the descriptor's
`Sysfd` and the unchanged `(offset, whence)`, and returns the pair that call
returned. -/
theorem seek_forwards (k : Consts) (h : Host) (fd : FD) (offset whence : Int) (t : Nat)
    (hin : h.incref = none) (ht : HasType k h fd t) (hnd : t ≠ k.FILETYPE_DIRECTORY) :
    ((FD.Seek k h fd offset whence).pos, (FD.Seek k h fd offset whence).err) =
        h.Seek fd.Sysfd offset whence ∧
      (FD.Seek k h fd offset whence).calls.filter Call.isSeek =
        [Call.Seek fd.Sysfd offset whence] := by
  obtain ⟨pre, hp, hs⟩ := seek_of_type k h fd offset whence t hin ht
  rw [hs, if_neg hnd]
  refine ⟨rfl, ?_⟩
  rcases hp with rfl | rfl <;> simp [List.filter, Call.isSeek]

theorem seek_forwards_witness :
    ((FD.Seek wasip1 openHost freshFD 9 1).pos, (FD.Seek wasip1 openHost freshFD 9 1).err) =
        openHost.Seek freshFD.Sysfd 9 1 ∧
      (FD.Seek wasip1 openHost freshFD 9 1).calls.filter Call.isSeek =
        [Call.Seek freshFD.Sysfd 9 1] :=
  seek_forwards wasip1 openHost freshFD 9 1 4 rfl (Or.inr ⟨rfl, rfl⟩) (by decide)

theorem seek_known_no_fstat (k : Consts) (h : Host) (fd : FD) (offset whence : Int)
    (hk : fd.Filetype ≠ k.FILETYPE_UNKNOWN) :
    Call.Fstat ∉ (FD.Seek k h fd offset whence).calls ∧
      (FD.Seek k h fd offset whence).fd.Filetype = fd.Filetype ∧
      ∀ s, FD.Seek k { h with Fstat := s } fd offset whence = FD.Seek k h fd offset whence := by
  cases hi : h.incref with
  | some err => simp [FD.Seek, hi]
  | none =>
    simp only [FD.Seek, hi, if_neg hk]
    split_ifs <;> simp

/-- C4, as stated, fails: the metadata query of the first call succeeds and
reports the type `unknown`; nothing usable is cached, and the second call
queries the metadata again. -/
theorem seek_cache_unknown_counterexample :
    unknownHost.incref = none ∧
      unknownHost.Fstat = Except.ok wasip1.FILETYPE_UNKNOWN ∧
      Call.Fstat ∈ (FD.Seek wasip1 unknownHost freshFD 0 0).calls ∧
      Call.Fstat ∈
        (FD.Seek wasip1 unknownHost (FD.Seek wasip1 unknownHost freshFD 0 0).fd 0 0).calls := by
  refine ⟨rfl, rfl, ?_, ?_⟩ <;> decide

/-- C4, amended: if the classification of one `Seek` call succeeds with a type
`t` other than `unknown`, then `t` is cached, and a second `Seek` call on the
descriptor (any arguments, any host answers) makes no metadata query, keeps
`t` cached, does not depend on what a metadata query would answer, and, once
its `incref` has succeeded, acts on the type `t`: for `t` directory it rewinds
on `(0, 0)` and otherwise returns `EINVAL`, for any other `t` it forwards to
`syscall.Seek` and returns that result. -/
theorem seek_cache_stable (k : Consts) (h1 h2 : Host) (fd : FD)
    (offset1 whence1 offset2 whence2 : Int) (t : Nat)
    (hin : h1.incref = none) (ht : HasType k h1 fd t) (hk : t ≠ k.FILETYPE_UNKNOWN) :
    (FD.Seek k h1 fd offset1 whence1).fd.Filetype = t ∧
      Call.Fstat ∉ (FD.Seek k h2 (FD.Seek k h1 fd offset1 whence1).fd offset2 whence2).calls ∧
      (FD.Seek k h2 (FD.Seek k h1 fd offset1 whence1).fd offset2 whence2).fd.Filetype = t ∧
      (∀ s, FD.Seek k { h2 with Fstat := s } (FD.Seek k h1 fd offset1 whence1).fd
          offset2 whence2 =
        FD.Seek k h2 (FD.Seek k h1 fd offset1 whence1).fd offset2 whence2) ∧
      (h2.incref = none →
        FD.Seek k h2 (FD.Seek k h1 fd offset1 whence1).fd offset2 whence2 =
          if t = k.FILETYPE_DIRECTORY then
            if offset2 = 0 ∧ whence2 = 0 then
              ⟨{ (FD.Seek k h1 fd offset1 whence1).fd with Dircookie := 0 }, 0, none,
                [Call.incref, Call.decref]⟩
            else
              ⟨(FD.Seek k h1 fd offset1 whence1).fd, 0, some (GoError.errno k.EINVAL),
                [Call.incref, Call.decref]⟩
          else
            ⟨(FD.Seek k h1 fd offset1 whence1).fd,
              (h2.Seek (FD.Seek k h1 fd offset1 whence1).fd.Sysfd offset2 whence2).1,
              (h2.Seek (FD.Seek k h1 fd offset1 whence1).fd.Sysfd offset2 whence2).2,
              [Call.incref, Call.Seek (FD.Seek k h1 fd offset1 whence1).fd.Sysfd offset2 whence2,
                Call.decref]⟩) := by
  have h1t : (FD.Seek k h1 fd offset1 whence1).fd.Filetype = t := by
    obtain ⟨pre, -, hs⟩ := seek_of_type k h1 fd offset1 whence1 t hin ht
    rw [hs]
    split_ifs <;> rfl
  have hk2 : (FD.Seek k h1 fd offset1 whence1).fd.Filetype ≠ k.FILETYPE_UNKNOWN := by
    rw [h1t]
    exact hk
  obtain ⟨a, b, c⟩ :=
    seek_known_no_fstat k h2 (FD.Seek k h1 fd offset1 whence1).fd offset2 whence2 hk2
  refine ⟨h1t, a, b.trans h1t, c, ?_⟩
  intro hin2
  generalize (FD.Seek k h1 fd offset1 whence1).fd = fd1 at h1t hk2
  subst h1t
  simp only [FD.Seek, hin2, if_neg hk2]

theorem seek_cache_stable_witness :
    ((FD.Seek wasip1 openHost freshFD 9 1).fd.Filetype = 4 ∧
      Call.Fstat ∉
        (FD.Seek wasip1 failingHost (FD.Seek wasip1 openHost freshFD 9 1).fd 2 0).calls ∧
      (FD.Seek wasip1 failingHost (FD.Seek wasip1 openHost freshFD 9 1).fd 2 0).fd.Filetype
        = 4 ∧
      (∀ s, FD.Seek wasip1 { failingHost with Fstat := s }
          (FD.Seek wasip1 openHost freshFD 9 1).fd 2 0 =
        FD.Seek wasip1 failingHost (FD.Seek wasip1 openHost freshFD 9 1).fd 2 0)) ∧
      FD.Seek wasip1 failingHost (FD.Seek wasip1 openHost freshFD 9 1).fd 2 0 =
        ⟨⟨5, 4, 7⟩, 2, none, [Call.incref, Call.Seek 5 2 0, Call.decref]⟩ ∧
      FD.Seek wasip1 failingHost (FD.Seek wasip1 openHost dirFD 9 1).fd 0 0 =
        ⟨⟨5, 3, 0⟩, 0, none, [Call.incref, Call.decref]⟩ ∧
      FD.Seek wasip1 failingHost (FD.Seek wasip1 openHost dirFD 9 1).fd 2 0 =
        ⟨⟨5, 3, 7⟩, 0, some (GoError.errno wasip1.EINVAL), [Call.incref, Call.decref]⟩ :=
  have hreg := seek_cache_stable wasip1 openHost failingHost freshFD 9 1 2 0 4 rfl
    (Or.inr ⟨rfl, rfl⟩) (by decide)
  ⟨⟨hreg.1, hreg.2.1, hreg.2.2.1, hreg.2.2.2.1⟩, hreg.2.2.2.2 rfl,
    (seek_cache_stable wasip1 openHost failingHost dirFD 9 1 0 0 3 rfl
      (Or.inl ⟨by decide, rfl⟩) (by decide)).2.2.2.2 rfl,
    (seek_cache_stable wasip1 openHost failingHost dirFD 9 1 2 0 3 rfl
      (Or.inl ⟨by decide, rfl⟩) (by decide)).2.2.2.2 rfl⟩

theorem readIntLE_eq (buf : List Byte) :
    ∀ (n off : Nat), off + n ≤ buf.length →
      readIntLE buf off n = some (leValue ((buf.drop off).take n)) := by
  intro n
  induction n with
  | zero =>
    intro off _
    simp [readIntLE, leValue]
  | succ n ih =>
    intro off hle
    have hlt : off < buf.length := by omega
    have hrest := ih (off + 1) (by omega)
    rw [readIntLE, List.getElem?_eq_getElem hlt, hrest, List.drop_eq_getElem_cons hlt,
      List.take_succ_cons, leValue]

theorem leValue_lt (l : List Byte) : leValue l < 256 ^ l.length := by
  induction l with
  | nil => simp [leValue]
  | cons b bs ih =>
    have hb : b.val < 256 := b.isLt
    rw [leValue, List.length_cons, pow_succ]
    omega

theorem readInt_short (buf : List Byte) (off size : Nat) (hlt : buf.length < off + size) :
    readInt buf off size = some (0, false) := by
  simp [readInt, hlt]

theorem readInt_long (buf : List Byte) (off size : Nat) (hle : off + size ≤ buf.length) :
    readInt buf off size = some (leValue ((buf.drop off).take size), true) := by
  have hn : ¬ buf.length < off + size := by omega
  simp [readInt, hn, readIntLE_eq buf size off hle]

theorem field_length (buf : List Byte) (off size : Nat) (hle : off + size ≤ buf.length) :
    ((buf.drop off).take size).length = size := by
  rw [List.length_take, List.length_drop]
  omega

theorem direntNamlen_total (buf : List Byte) :
    ∃ n ok, direntNamlen buf = some (n, ok) ∧ n < 2 ^ 32 := by
  by_cases hlt : buf.length < 20
  · exact ⟨0, false, readInt_short buf 16 4 hlt, by norm_num⟩
  · have hle : 16 + 4 ≤ buf.length := by omega
    refine ⟨_, true, readInt_long buf 16 4 hle, ?_⟩
    have hv := leValue_lt ((buf.drop 16).take 4)
    rw [field_length buf 16 4 hle] at hv
    norm_num at hv ⊢
    exact hv

/-- C6: `direntNamlen` returns a result on every buffer, and whenever it
returns `(n, ok)`, `direntReclen` returns a result with the same `ok`; when
`ok` is true that result is `24 + n`, the sum not wrapping around. -/
theorem direntReclen_spec (buf : List Byte) :
    (∃ n ok, direntNamlen buf = some (n, ok)) ∧
      ∀ n ok, direntNamlen buf = some (n, ok) →
        (∃ r, direntReclen buf = some (r, ok)) ∧
          (ok = true → direntReclen buf = some (24 + n, true)) := by
  obtain ⟨m, okm, hm, hbound⟩ := direntNamlen_total buf
  refine ⟨⟨m, okm, hm⟩, ?_⟩
  intro n ok hn
  rw [hm] at hn
  injection hn with hn
  injection hn with h1 h2
  subst h1
  subst h2
  have hmod : (24 + m) % 2 ^ 64 = 24 + m := Nat.mod_eq_of_lt (by omega)
  have hr : direntReclen buf = some (24 + m, okm) := by
    simp only [direntReclen, hm, hmod]
  refine ⟨⟨_, hr⟩, ?_⟩
  intro hok
  rw [hr, hok]

theorem direntReclen_spec_witness :
    direntNamlen sampleDirent = some (3, true) ∧
      direntReclen sampleDirent = some (24 + 3, true) :=
  ⟨by decide, ((direntReclen_spec sampleDirent).2 3 true (by decide)).2 rfl⟩

/-- C7: `direntIno` reports `ok = false` when the buffer has fewer than 16
bytes and `direntNamlen` when it has fewer than 20; otherwise each reports
`ok = true` and the little-endian value of the bytes of its field (8 bytes
from index 8, 4 bytes from index 16), all of them inside the buffer.  Neither
reads outside the buffer: both return a result on every buffer. -/
theorem dirent_accessors (buf : List Byte) :
    (buf.length < 16 → (direntIno buf).map Prod.snd = some false) ∧
      (16 ≤ buf.length →
        direntIno buf = some (leValue ((buf.drop 8).take 8), true) ∧
          ((buf.drop 8).take 8).length = 8) ∧
      (buf.length < 20 → (direntNamlen buf).map Prod.snd = some false) ∧
      (20 ≤ buf.length →
        direntNamlen buf = some (leValue ((buf.drop 16).take 4), true) ∧
          ((buf.drop 16).take 4).length = 4) := by
  refine ⟨?_, ?_, ?_, ?_⟩
  · intro hlt
    have hs := readInt_short buf 8 8 hlt
    simp [direntIno, Dirent.offsetofIno, Dirent.sizeofIno, hs]
  · intro hle
    exact ⟨readInt_long buf 8 8 hle, field_length buf 8 8 hle⟩
  · intro hlt
    have hs := readInt_short buf 16 4 hlt
    simp [direntNamlen, Dirent.offsetofNamlen, Dirent.sizeofNamlen, hs]
  · intro hle
    exact ⟨readInt_long buf 16 4 hle, field_length buf 16 4 hle⟩

theorem dirent_accessors_witness :
    (direntIno (sampleDirent.take 15)).map Prod.snd = some false ∧
      direntIno sampleDirent = some (258, true) ∧
      (direntNamlen (sampleDirent.take 19)).map Prod.snd = some false ∧
      direntNamlen sampleDirent = some (3, true) :=
  ⟨(dirent_accessors (sampleDirent.take 15)).1 (by decide),
    ((dirent_accessors sampleDirent).2.1 (by decide)).1,
    (dirent_accessors (sampleDirent.take 19)).2.2.1 (by decide),
    ((dirent_accessors sampleDirent).2.2.2 (by decide)).1⟩

/-! ## Properties of `Errno` -/

theorem Itoa_ofNat (e : Nat) : Itoa (e : Int) = Nat.repr e := by
  have hn : ¬ ((e : Int) < 0) := by omega
  simp [Itoa, hn]

/-- C8: if `e` is a valid index of `errorstr` and the entry there is not
empty, `Errno.Error` returns that entry; if `e` is outside the table or the
entry is empty, it returns `"errno "` followed by `e` in decimal. -/
theorem errno_error_spec (errorstr : List String) (e : Nat) :
    (∀ h : e < errorstr.length, errorstr.get ⟨e, h⟩ ≠ "" →
        Errno.Error errorstr e = errorstr.get ⟨e, h⟩) ∧
      ((∀ h : e < errorstr.length, errorstr.get ⟨e, h⟩ = "") →
        Errno.Error errorstr e = "errno " ++ Nat.repr e) := by
  constructor
  · intro h hne
    have hc : 0 ≤ (e : Int) ∧ (e : Int) < (errorstr.length : Int) := by omega
    simp only [Errno.Error, dif_pos hc]
    rw [if_pos hne]
  · intro hall
    by_cases h : e < errorstr.length
    · have hc : 0 ≤ (e : Int) ∧ (e : Int) < (errorstr.length : Int) := by omega
      have he := hall h
      simp only [Errno.Error, dif_pos hc]
      rw [if_neg (not_not.mpr he), Itoa_ofNat]
    · have hc : ¬ (0 ≤ (e : Int) ∧ (e : Int) < (errorstr.length : Int)) := by omega
      simp only [Errno.Error, dif_neg hc, Itoa_ofNat]

theorem errno_error_spec_witness :
    Errno.Error sampleErrorstr 2 = "permission denied" ∧
      Errno.Error sampleErrorstr 1 = "errno " ++ Nat.repr 1 ∧
      Errno.Error sampleErrorstr 70 = "errno " ++ Nat.repr 70 :=
  ⟨(errno_error_spec sampleErrorstr 2).1 (by decide) (by decide),
    (errno_error_spec sampleErrorstr 1).2 (fun _ => rfl),
    (errno_error_spec sampleErrorstr 70).2 (fun h => absurd h (by decide))⟩

/-- C9: `e.Is(ErrNotExist)` is true exactly when `e` is `ENOENT`; it is false
for every other code, and so for `EEXIST` (a code different from `ENOENT`). -/
theorem errno_is_not_exist (k : Consts) (e : Nat) :
    (Errno.Is k e GoError.ErrNotExist = true ↔ e = k.ENOENT) ∧
      (e ≠ k.ENOENT → Errno.Is k e GoError.ErrNotExist = false) ∧
      (k.EEXIST ≠ k.ENOENT → Errno.Is k k.EEXIST GoError.ErrNotExist = false) := by
  simp [Errno.Is]

theorem errno_is_not_exist_witness :
    (Errno.Is wasip1 44 GoError.ErrNotExist = true ↔ 44 = wasip1.ENOENT) ∧
      Errno.Is wasip1 2 GoError.ErrNotExist = false ∧
      Errno.Is wasip1 wasip1.EEXIST GoError.ErrNotExist = false :=
  ⟨(errno_is_not_exist wasip1 44).1, (errno_is_not_exist wasip1 2).2.1 (by decide),
    (errno_is_not_exist wasip1 44).2.2 (by decide)⟩

/-- C10: `e.Is(ErrPermission)` is true exactly when `e` is `EACCES` or `EPERM`,
`e.Is(ErrExist)` exactly when `e` is `EEXIST` or `ENOTEMPTY`, and `e.Is(target)`
is false for every target other than `ErrPermission`, `ErrExist` and
`ErrNotExist`. -/
theorem errno_is_closed (k : Consts) (e : Nat) :
    (Errno.Is k e GoError.ErrPermission = true ↔ e = k.EACCES ∨ e = k.EPERM) ∧
      (Errno.Is k e GoError.ErrExist = true ↔ e = k.EEXIST ∨ e = k.ENOTEMPTY) ∧
      ∀ target : GoError, target ≠ GoError.ErrPermission → target ≠ GoError.ErrExist →
        target ≠ GoError.ErrNotExist → Errno.Is k e target = false := by
  refine ⟨by simp [Errno.Is], by simp [Errno.Is], ?_⟩
  intro target h1 h2 h3
  cases target <;> simp_all [Errno.Is]

theorem errno_is_closed_witness :
    (Errno.Is wasip1 63 GoError.ErrPermission = true ↔
        63 = wasip1.EACCES ∨ 63 = wasip1.EPERM) ∧
      (Errno.Is wasip1 63 GoError.ErrExist = true ↔
        63 = wasip1.EEXIST ∨ 63 = wasip1.ENOTEMPTY) ∧
      Errno.Is wasip1 63 (GoError.errno 63) = false ∧
      Errno.Is wasip1 63 (GoError.other 1) = false :=
  ⟨(errno_is_closed wasip1 63).1, (errno_is_closed wasip1 63).2.1,
    (errno_is_closed wasip1 63).2.2 (GoError.errno 63) (by decide) (by decide) (by decide),
    (errno_is_closed wasip1 63).2.2 (GoError.other 1) (by decide) (by decide) (by decide)⟩

/-- C11: `e.Temporary()` is true exactly when `e` is `EINTR`, `e` is `EMFILE` or
`e.Timeout()` is true; so every timeout error is temporary. -/
theorem errno_temporary_spec (k : Consts) (e : Nat) :
    (Errno.Temporary k e = true ↔
        e = k.EINTR ∨ e = k.EMFILE ∨ Errno.Timeout k e = true) ∧
      (Errno.Timeout k e = true → Errno.Temporary k e = true) := by
  constructor
  · simp [Errno.Temporary, or_assoc]
  · intro ht
    simp [Errno.Temporary, ht]

theorem errno_temporary_spec_witness :
    (Errno.Temporary wasip1 27 = true ↔
        27 = wasip1.EINTR ∨ 27 = wasip1.EMFILE ∨ Errno.Timeout wasip1 27 = true) ∧
      Errno.Temporary wasip1 73 = true :=
  ⟨(errno_temporary_spec wasip1 27).1, (errno_temporary_spec wasip1 73).2 (by decide)⟩

/-- C12: `e.Timeout()` is true exactly when `e` is `EAGAIN` or `ETIMEDOUT`. -/
theorem errno_timeout_spec (k : Consts) (e : Nat) :
    Errno.Timeout k e = true ↔ e = k.EAGAIN ∨ e = k.ETIMEDOUT := by
  simp [Errno.Timeout]

/-! ## Properties of `Signal` -/

theorem signal_string_generic (s : Int) : Signal.String s = "signal " ++ Itoa s := by
  have hc : ¬ (0 ≤ s ∧ s < (signals.length : Int)) := by
    simp [signals]
  simp only [Signal.String, dif_neg hc]

/-- C13, as stated, fails: the table `signals` has no entry, and `SIGINT`, one
of the six named constants, is rendered in the generic form. -/
theorem signal_string_counterexample :
    signals.length = 0 ∧ Signal.String SIGINT = "signal 2" := by
  refine ⟨rfl, ?_⟩
  rw [signal_string_generic]
  decide

/-- C13, amended: `Signal.String` is a table lookup with generic fallback over
an empty table: for every `Signal` value `s` it returns `"signal "` followed by
the decimal representation of `s`; the six named constants are rendered as
`"signal 1"` to `"signal 6"`. -/
theorem signal_string_spec :
    (∀ s : Int, Signal.String s = "signal " ++ Itoa s) ∧
      Signal.String SIGCHLD = "signal 1" ∧ Signal.String SIGINT = "signal 2" ∧
      Signal.String SIGKILL = "signal 3" ∧ Signal.String SIGTRAP = "signal 4" ∧
      Signal.String SIGQUIT = "signal 5" ∧ Signal.String SIGTERM = "signal 6" := by
  refine ⟨signal_string_generic, ?_, ?_, ?_, ?_, ?_, ?_⟩ <;>
    (rw [signal_string_generic]; decide)

/-! ## Properties of the process emulation -/

/-- C14: `Umask(m)` returns the stored value and stores `m`; from the initial
value 0, `Umask(a)` followed by `Umask(b)` returns 0, then `a`, and leaves `b`
stored. -/
theorem umask_swap :
    (∀ u m : Int, Umask u m = (u, m)) ∧
      ∀ a b : Int, (Umask umaskInit a).1 = 0 ∧
        (Umask (Umask umaskInit a).2 b).1 = a ∧ (Umask (Umask umaskInit a).2 b).2 = b := by
  refine ⟨fun u m => rfl, fun a b => ⟨rfl, rfl, rfl⟩⟩

theorem toInt32_of_range (x : Int) (hlo : -(2 ^ 31) ≤ x) (hhi : x < 2 ^ 31) :
    toInt32 x = x := by
  unfold toInt32
  omega

theorem toInt32_add_toInt32 (c x : Int) : toInt32 (c + toInt32 x) = toInt32 (c + x) := by
  have e1 : (2 : Int) ^ 31 = 2147483648 := by norm_num
  have e2 : (2 : Int) ^ 32 = 4294967296 := by norm_num
  simp only [toInt32, e1, e2]
  omega

/-- C15, as stated, fails: a `Signal` is an `int`, and for the signal value
`2^32` the conversion `int32(signum)` gives 0, so the exit code is 128 and not
`128 + 2^32`. -/
theorem kill_wrap_counterexample :
    (Kill 3 4294967296).1 = [HostCall.proc_exit 128] ∧
      (128 : Int) ≠ 128 + 4294967296 := by
  constructor
  · decide
  · decide

/-- C15, amended: for every `pid` and every signal `s`, `Kill(pid, s)` makes
exactly one `proc_exit` call and returns nil; the exit code is `128 + s`
reduced to `int32` and does not depend on `pid`.  For every `s` with
`-2^31 ≤ 128 + s < 2^31` the code is `128 + s`; for `SIGKILL` it is 131. -/
theorem kill_exit_code (pid : Int) (s : Int) :
    Kill pid s = ([HostCall.proc_exit (toInt32 (128 + s))], none) ∧
      (-(2 ^ 31) ≤ 128 + s → 128 + s < 2 ^ 31 →
        (Kill pid s).1 = [HostCall.proc_exit (128 + s)]) ∧
      (Kill pid SIGKILL).1 = [HostCall.proc_exit (128 + SIGKILL)] ∧
      128 + SIGKILL = 131 := by
  have hall : ∀ q r : Int, Kill q r = ([HostCall.proc_exit (toInt32 (128 + r))], none) := by
    intro q r
    simp only [Kill, ProcExit, toInt32_add_toInt32]
  have hgen : ∀ q r : Int, -(2 ^ 31) ≤ 128 + r → 128 + r < 2 ^ 31 →
      (Kill q r).1 = [HostCall.proc_exit (128 + r)] := by
    intro q r hlo hhi
    rw [hall q r, toInt32_of_range _ hlo hhi]
  exact ⟨hall pid s, hgen pid s, hgen pid SIGKILL (by decide) (by decide), by decide⟩

theorem kill_exit_code_witness :
    Kill 7 SIGTERM = ([HostCall.proc_exit (toInt32 (128 + SIGTERM))], none) ∧
      (Kill 7 SIGTERM).1 = [HostCall.proc_exit (128 + SIGTERM)] ∧
      (Kill 7 (-2147483776)).1 = [HostCall.proc_exit (128 + -2147483776)] ∧
      (Kill 7 SIGKILL).1 = [HostCall.proc_exit (128 + SIGKILL)] :=
  ⟨(kill_exit_code 7 SIGTERM).1, (kill_exit_code 7 SIGTERM).2.1 (by decide) (by decide),
    (kill_exit_code 7 (-2147483776)).2.1 (by decide) (by decide),
    (kill_exit_code 7 SIGTERM).2.2.1⟩

/-- C16: `Syscall`, `Syscall6`, `RawSyscall` and `RawSyscall6` return
`(0, 0, ENOSYS)`, `StartProcess` returns `(0, 0, ENOSYS)` and `Wait4` returns
`(0, ENOSYS)`, whatever the arguments are. -/
theorem unsupported_enosys (k : Consts) :
    (∀ trap a1 a2 a3, Syscall k trap a1 a2 a3 = (0, 0, k.ENOSYS)) ∧
      (∀ trap a1 a2 a3 a4 a5 a6, Syscall6 k trap a1 a2 a3 a4 a5 a6 = (0, 0, k.ENOSYS)) ∧
      (∀ trap a1 a2 a3, RawSyscall k trap a1 a2 a3 = (0, 0, k.ENOSYS)) ∧
      (∀ trap a1 a2 a3 a4 a5 a6, RawSyscall6 k trap a1 a2 a3 a4 a5 a6 = (0, 0, k.ENOSYS)) ∧
      (∀ argv0 argv attr,
        StartProcess k argv0 argv attr = (0, 0, some (GoError.errno k.ENOSYS))) ∧
      (∀ pid wstatus options rusage,
        Wait4 k pid wstatus options rusage = (0, some (GoError.errno k.ENOSYS))) := by
  refine ⟨?_, ?_, ?_, ?_, ?_, ?_⟩ <;> intros <;> rfl

/-- C17: `Sysctl(key)` returns a nil error exactly when `key` is
`"kern.hostname"`; it then returns the fixed string `"js"`, and for every other
key it returns the empty string and `ENOSYS`. -/
theorem sysctl_spec (k : Consts) (key : String) :
    ((Sysctl k key).2 = none ↔ key = "kern.hostname") ∧
      (key = "kern.hostname" → Sysctl k key = ("js", none)) ∧
      (key ≠ "kern.hostname" → Sysctl k key = ("", some (GoError.errno k.ENOSYS))) := by
  by_cases hk : key = "kern.hostname"
  · simp [Sysctl, hk]
  · simp [Sysctl, hk]

theorem sysctl_spec_witness :
    Sysctl wasip1 "kern.hostname" = ("js", none) ∧
      Sysctl wasip1 "kern.ostype" = ("", some (GoError.errno wasip1.ENOSYS)) :=
  ⟨(sysctl_spec wasip1 "kern.hostname").2.1 rfl,
    (sysctl_spec wasip1 "kern.ostype").2.2 (by decide)⟩

/-! ## Further properties of `FD.Seek` -/

/-- C18: when `incref` succeeds, every path of `Seek` calls `incref` once and
`decref` once, `decref` being the last call, and the in-use count after the
call is the count before; when `incref` fails with `e`, `Seek` returns `(0, e)`,
leaves the descriptor as it was and makes no other call (no `decref`, no
metadata query, no native seek). -/
theorem seek_ref_balance (k : Consts) (h : Host) (fd : FD) (offset whence : Int) (n : Nat) :
    (h.incref = none →
        (FD.Seek k h fd offset whence).calls.count Call.incref = 1 ∧
          (FD.Seek k h fd offset whence).calls.count Call.decref = 1 ∧
          (FD.Seek k h fd offset whence).calls.getLast? = some Call.decref ∧
          inUse h n (FD.Seek k h fd offset whence).calls = n) ∧
      ∀ e, h.incref = some e →
        (FD.Seek k h fd offset whence).pos = 0 ∧
          (FD.Seek k h fd offset whence).err = some e ∧
          (FD.Seek k h fd offset whence).fd = fd ∧
          (FD.Seek k h fd offset whence).calls = [Call.incref] ∧
          Call.decref ∉ (FD.Seek k h fd offset whence).calls ∧
          Call.Fstat ∉ (FD.Seek k h fd offset whence).calls ∧
          (∀ a b c, Call.Seek a b c ∉ (FD.Seek k h fd offset whence).calls) ∧
          inUse h n (FD.Seek k h fd offset whence).calls = n := by
  constructor
  · intro hin
    cases hF : h.Fstat <;> simp only [FD.Seek, hin, hF] <;> split_ifs <;>
      simp [inUse, hin, List.count_cons]
  · intro e he
    rw [seek_incref_error k h fd offset whence e he]
    simp [inUse, he]

theorem seek_ref_balance_witness :
    ((FD.Seek wasip1 openHost dirFD 0 0).calls.count Call.incref = 1 ∧
        (FD.Seek wasip1 openHost dirFD 0 0).calls.count Call.decref = 1 ∧
        (FD.Seek wasip1 openHost dirFD 0 0).calls.getLast? = some Call.decref ∧
        inUse openHost 2 (FD.Seek wasip1 openHost dirFD 0 0).calls = 2) ∧
      ((FD.Seek wasip1 closingHost dirFD 0 0).pos = 0 ∧
        (FD.Seek wasip1 closingHost dirFD 0 0).err = some (GoError.other 0) ∧
        (FD.Seek wasip1 closingHost dirFD 0 0).fd = dirFD ∧
        (FD.Seek wasip1 closingHost dirFD 0 0).calls = [Call.incref] ∧
        Call.decref ∉ (FD.Seek wasip1 closingHost dirFD 0 0).calls ∧
        Call.Fstat ∉ (FD.Seek wasip1 closingHost dirFD 0 0).calls ∧
        (∀ a b c, Call.Seek a b c ∉ (FD.Seek wasip1 closingHost dirFD 0 0).calls) ∧
        inUse closingHost 2 (FD.Seek wasip1 closingHost dirFD 0 0).calls = 2) :=
  ⟨(seek_ref_balance wasip1 openHost dirFD 0 0 2).1 rfl,
    (seek_ref_balance wasip1 closingHost dirFD 0 0 2).2 (GoError.other 0) rfl⟩

/-- C19: unless the file type is directory (cached, or delivered by the
call's metadata query) and `offset = 0` and `whence = 0`, `Seek` leaves
`Dircookie` as it was; `Sysfd` is the same after every call. -/
theorem seek_frame (k : Consts) (h : Host) (fd : FD) (offset whence : Int) :
    (¬ (HasType k h fd k.FILETYPE_DIRECTORY ∧ offset = 0 ∧ whence = 0) →
        (FD.Seek k h fd offset whence).fd.Dircookie = fd.Dircookie) ∧
      (FD.Seek k h fd offset whence).fd.Sysfd = fd.Sysfd := by
  cases hin : h.incref with
  | some e =>
    rw [seek_incref_error k h fd offset whence e hin]
    exact ⟨fun _ => rfl, rfl⟩
  | none =>
    cases hF : h.Fstat <;> simp only [FD.Seek, hin, hF, HasType] <;> split_ifs <;>
      simp_all

theorem seek_frame_witness :
    (FD.Seek wasip1 openHost dirFD 5 0).fd.Dircookie = dirFD.Dircookie ∧
      (FD.Seek wasip1 openHost dirFD 5 0).fd.Sysfd = dirFD.Sysfd :=
  ⟨(seek_frame wasip1 openHost dirFD 5 0).1 (fun hh => absurd hh.2.1 (by decide)),
    (seek_frame wasip1 openHost dirFD 5 0).2⟩

/-! ## Properties of `Timeval` -/

theorem toInt64_of_range (x : Int) (hlo : -9223372036854775808 ≤ x)
    (hhi : x < 9223372036854775808) : toInt64 x = x := by
  have e1 : (2 : Int) ^ 63 = 9223372036854775808 := by norm_num
  have e2 : (2 : Int) ^ 64 = 18446744073709551616 := by norm_num
  simp only [toInt64, e1, e2]
  omega

theorem toUint64_toInt64 (x : Int) (hlo : 0 ≤ x) (hhi : x < 18446744073709551616) :
    toUint64 (toInt64 x) = x.toNat := by
  have e1 : (2 : Int) ^ 63 = 9223372036854775808 := by norm_num
  have e2 : (2 : Int) ^ 64 = 18446744073709551616 := by norm_num
  simp only [toInt64, toUint64, e1, e2]
  omega

/-- C20: for every 64-bit timestamp `t`, `setTimestamp(t)` stores
`Sec = t div 10^9` and a `Usec` with `0 ≤ Usec < 1000000`, and `timestamp()`
then returns `t - t mod 1000`: less than 1000 below `t`, and `t` itself when `t`
is a multiple of 1000. -/
theorem timeval_roundtrip (tv : Timeval) (t : Nat) (ht : t < 2 ^ 64) :
    (tv.setTimestamp t).Sec = ((t / 1000000000 : Nat) : Int) ∧
      0 ≤ (tv.setTimestamp t).Usec ∧ (tv.setTimestamp t).Usec < 1000000 ∧
      (tv.setTimestamp t).timestamp = t - t % 1000 ∧
      t - (tv.setTimestamp t).timestamp < 1000 ∧
      (t % 1000 = 0 → (tv.setTimestamp t).timestamp = t) := by
  have e3 : (2 : Nat) ^ 64 = 18446744073709551616 := by norm_num
  rw [e3] at ht
  have hs : toInt64 ((t / 1000000000 : Nat) : Int) = ((t / 1000000000 : Nat) : Int) :=
    toInt64_of_range _ (by omega) (by omega)
  have hu : toInt64 (((t % 1000000000) / 1000 : Nat) : Int)
      = (((t % 1000000000) / 1000 : Nat) : Int) :=
    toInt64_of_range _ (by omega) (by omega)
  have hts : (tv.setTimestamp t).timestamp = t - t % 1000 := by
    simp only [Timeval.setTimestamp, Timeval.timestamp, hs, hu]
    rw [toUint64_toInt64 _ (by omega) (by omega), toUint64_toInt64 _ (by omega) (by omega), e3]
    omega
  refine ⟨hs, ?_, ?_, hts, ?_, ?_⟩
  · show 0 ≤ toInt64 _
    rw [hu]
    omega
  · show toInt64 _ < 1000000
    rw [hu]
    omega
  · rw [hts]
    omega
  · intro h0
    rw [hts]
    omega

theorem timeval_roundtrip_witness :
    (Timeval.setTimestamp ⟨0, 0⟩ 18446744073709551615).Sec = 18446744073 ∧
      (Timeval.setTimestamp ⟨0, 0⟩ 18446744073709551615).timestamp
        = 18446744073709551000 ∧
      (Timeval.setTimestamp ⟨0, 0⟩ 1700000000123456000).timestamp = 1700000000123456000 :=
  ⟨(timeval_roundtrip ⟨0, 0⟩ 18446744073709551615 (by decide)).1,
    (timeval_roundtrip ⟨0, 0⟩ 18446744073709551615 (by decide)).2.2.2.1,
    (timeval_roundtrip ⟨0, 0⟩ 1700000000123456000 (by decide)).2.2.2.2.2 (by decide)⟩

end GoWasi
